import Mathlib

/-!
Shallow embedding of the Stock Ledger Core of the inventory application:
the relational tables from the migration
(profiles, categories, products, stock_movements), the trigger function
update_product_quantity, the row-level security rules relevant to movement
insertion, and the operations performed by the pages (movement creation and
listing from Stock.tsx, metrics from Dashboard.tsx, product CRUD from the
products page). Quantities are DECIMAL(10,2) in the store and are modelled
as rationals; ids and timestamps are modelled as naturals.
-/

namespace StockLedger

/-- movement_type column, constrained by CHECK (movement_type IN ('entrada','saida')).
entrada is an entry movement, saida an exit movement. -/
inductive MovementType where
  | entrada
  | saida
deriving DecidableEq, Repr

/-- A row of public.categories. -/
structure Category where
  id : Nat
  name : String
  description : Option String
  created_at : Nat
deriving DecidableEq, Repr

/-- A row of public.products. current_quantity and minimum_quantity are
DECIMAL(10,2) NOT NULL DEFAULT 0, category_id is a nullable reference to
categories with ON DELETE SET NULL. -/
structure Product where
  id : Nat
  name : String
  description : Option String
  category_id : Option Nat
  unit : String
  current_quantity : ℚ
  minimum_quantity : ℚ
  created_at : Nat
  updated_at : Nat
deriving DecidableEq, Repr

/-- A row of public.stock_movements. product_id references products with
ON DELETE CASCADE; quantity is CHECK (quantity > 0). -/
structure Movement where
  id : Nat
  product_id : Nat
  movement_type : MovementType
  quantity : ℚ
  responsible_user_id : Nat
  notes : Option String
  created_at : Nat
deriving DecidableEq, Repr

/-- A row of public.profiles. -/
structure Profile where
  id : Nat
  full_name : String
  created_at : Nat
deriving DecidableEq, Repr

/-- The persisted state: the four tables of the migration. -/
structure DBState where
  categories : List Category
  products : List Product
  movements : List Movement
  profiles : List Profile
deriving DecidableEq, Repr

/-- The error kinds of the validation layer (section 7 of the design):
non-positive quantity is InvalidArgument, a responsible_user_id different
from the caller violates the RLS insert policy (PermissionDenied), and a
missing referenced product violates the foreign key (NotFound). -/
inductive LedgerError where
  | invalidArgument
  | permissionDenied
  | notFound
deriving DecidableEq, Repr

/-- The insert payload built by handleSubmit in Stock.tsx:
product_id, movement_type, quantity, notes, responsible_user_id. -/
structure MovementRequest where
  product_id : Nat
  movement_type : MovementType
  quantity : ℚ
  notes : Option String
  responsible_user_id : Nat
deriving DecidableEq, Repr

/-- The row inserted into stock_movements for a request, with its generated
id and creation timestamp. -/
def mkMovement (req : MovementRequest) (newId now : Nat) : Movement :=
  { id := newId
    product_id := req.product_id
    movement_type := req.movement_type
    quantity := req.quantity
    responsible_user_id := req.responsible_user_id
    notes := req.notes
    created_at := now }

/-- Effect of the trigger function update_product_quantity on one product
row: for 'entrada' the UPDATE sets current_quantity = current_quantity +
NEW.quantity, for 'saida' it sets current_quantity =
GREATEST(current_quantity - NEW.quantity, 0); both refresh updated_at, and
rows whose id differs from NEW.product_id are untouched by the WHERE clause. -/
def updateRow (m : Movement) (now : Nat) (p : Product) : Product :=
  if p.id = m.product_id then
    match m.movement_type with
    | .entrada =>
        { p with current_quantity := p.current_quantity + m.quantity, updated_at := now }
    | .saida =>
        { p with current_quantity := max (p.current_quantity - m.quantity) 0, updated_at := now }
  else p

/-- The trigger function update_product_quantity, fired AFTER INSERT on
stock_movements, applied to the products table. -/
def update_product_quantity (ps : List Product) (m : Movement) (now : Nat) : List Product :=
  ps.map (updateRow m now)

/-- The single-balance arithmetic of the trigger: an entry maps balance Q to
Q + q, an exit maps Q to max (Q - q) 0. -/
def applyOne (Q : ℚ) (t : MovementType) (q : ℚ) : ℚ :=
  match t with
  | .entrada => Q + q
  | .saida => max (Q - q) 0

/-- Movement creation: the quantity guard of handleSubmit in Stock.tsx
together with the table CHECK (quantity > 0) rejects non-positive
quantities; the RLS insert policy WITH CHECK (auth.uid() =
responsible_user_id) rejects a responsible user other than the caller; the
foreign key on product_id rejects a missing product. On success the row is
appended to stock_movements and the AFTER INSERT trigger updates the
product, as one atomic unit. -/
def createMovement (caller : Nat) (req : MovementRequest) (newId now : Nat)
    (s : DBState) : Except LedgerError DBState :=
  if req.quantity ≤ 0 then .error .invalidArgument
  else if req.responsible_user_id ≠ caller then .error .permissionDenied
  else if (s.products.any fun p => p.id == req.product_id) = false then .error .notFound
  else .ok { s with
    movements := s.movements ++ [mkMovement req newId now]
    products := update_product_quantity s.products (mkMovement req newId now) now }

/-- Sequential application of movement requests, each with its generated id
and timestamp, stopping at the first rejection. -/
def processAll (caller : Nat) (reqs : List (MovementRequest × Nat × Nat))
    (s : DBState) : Except LedgerError DBState :=
  match reqs with
  | [] => .ok s
  | (r, i, t) :: rest =>
    match createMovement caller r i t s with
    | .ok s1 => processAll caller rest s1
    | .error e => .error e

/-- Lookup of a product row by id. -/
def getProduct (s : DBState) (pid : Nat) : Option Product :=
  s.products.find? fun p => p.id == pid

/-- The form data of the products page: name, description, category_id,
unit, minimum_quantity; the creation form has no initial-quantity input. -/
structure ProductForm where
  name : String
  description : Option String
  category_id : Option Nat
  unit : String
  minimum_quantity : ℚ
deriving DecidableEq, Repr

/-- Product creation from the products page: the insert spreads the form
data and hardcodes current_quantity: 0. -/
def createProduct (f : ProductForm) (newId now : Nat) (s : DBState) : DBState :=
  { s with products := s.products ++
      [{ id := newId
         name := f.name
         description := f.description
         category_id := f.category_id
         unit := f.unit
         current_quantity := 0
         minimum_quantity := f.minimum_quantity
         created_at := now
         updated_at := now }] }

/-- Product update from the products page: the update payload carries name,
description, category_id, unit and minimum_quantity but never
current_quantity; the BEFORE UPDATE trigger refreshes updated_at. -/
def updateProduct (pid : Nat) (f : ProductForm) (now : Nat) (s : DBState) : DBState :=
  { s with products := s.products.map fun p =>
      if p.id = pid then
        { p with name := f.name, description := f.description,
                 category_id := f.category_id, unit := f.unit,
                 minimum_quantity := f.minimum_quantity, updated_at := now }
      else p }

/-- Product deletion from the products page; stock_movements.product_id is
declared ON DELETE CASCADE, so the product's movements are deleted with it. -/
def deleteProduct (pid : Nat) (s : DBState) : DBState :=
  { s with products := s.products.filter fun p => p.id != pid
           movements := s.movements.filter fun m => m.product_id != pid }

/-- Category creation (the RLS policy lets authenticated users insert). -/
def createCategory (name : String) (description : Option String) (newId now : Nat)
    (s : DBState) : DBState :=
  { s with categories := s.categories ++
      [{ id := newId, name := name, description := description, created_at := now }] }

/-- Category update (the RLS policy lets authenticated users update). -/
def updateCategory (cid : Nat) (name : String) (description : Option String)
    (s : DBState) : DBState :=
  { s with categories := s.categories.map fun c =>
      if c.id = cid then { c with name := name, description := description } else c }

/-- Category deletion; products.category_id is declared ON DELETE SET NULL,
so referencing products keep all their data but their category reference
is cleared. -/
def deleteCategory (cid : Nat) (s : DBState) : DBState :=
  { s with categories := s.categories.filter fun c => c.id != cid
           products := s.products.map fun p =>
             if p.category_id = some cid then { p with category_id := none } else p }

/-- The write operations the application exposes on the store. There is no
operation updating or deleting a stock movement: the pages only insert
movements, and the migration declares no UPDATE or DELETE policy on
stock_movements. -/
inductive Op where
  | createCategoryOp (name : String) (description : Option String) (newId now : Nat)
  | updateCategoryOp (cid : Nat) (name : String) (description : Option String)
  | deleteCategoryOp (cid : Nat)
  | createProductOp (f : ProductForm) (newId now : Nat)
  | updateProductOp (pid : Nat) (f : ProductForm) (now : Nat)
  | deleteProductOp (pid : Nat)
  | createMovementOp (caller : Nat) (req : MovementRequest) (newId now : Nat)
deriving DecidableEq, Repr

/-- One step of the system: a rejected movement leaves the state unchanged
(validation failures have no side effect). -/
def step (o : Op) (s : DBState) : DBState :=
  match o with
  | .createCategoryOp n d i t => createCategory n d i t s
  | .updateCategoryOp c n d => updateCategory c n d s
  | .deleteCategoryOp c => deleteCategory c s
  | .createProductOp f i t => createProduct f i t s
  | .updateProductOp p f t => updateProduct p f t s
  | .deleteProductOp p => deleteProduct p s
  | .createMovementOp c r i t =>
    match createMovement c r i t s with
    | .ok s1 => s1
    | .error _ => s

/-- Whether an operation is the creation of an entry movement. -/
def isEntryOp (o : Op) : Bool :=
  match o with
  | .createMovementOp _ req _ _ => req.movement_type == .entrada
  | _ => false

/-- The low-stock test of Stock.tsx (isLowStock):
current_quantity <= minimum_quantity. -/
def isLowStock (p : Product) : Bool :=
  decide (p.current_quantity ≤ p.minimum_quantity)

/-- The low-stock alert list of Stock.tsx (getLowStockProducts):
products.filter with current_quantity <= minimum_quantity. -/
def getLowStockProducts (ps : List Product) : List Product :=
  ps.filter fun p => decide (p.current_quantity ≤ p.minimum_quantity)

/-- The dashboard metric lowStockProducts of Dashboard.tsx: the length of
products.filter with current_quantity <= minimum_quantity. -/
def lowStockProducts (ps : List Product) : Nat :=
  (ps.filter fun p => decide (p.current_quantity ≤ p.minimum_quantity)).length

/-- The descending order on created_at used by loadMovements
(order by created_at, ascending: false). -/
def movementDesc (a b : Movement) : Bool :=
  decide (b.created_at ≤ a.created_at)

/-- A row of the movement history dialog: the movement joined with the
referenced product's name and unit and the responsible profile's full name. -/
structure MovementRow where
  id : Nat
  product_id : Nat
  movement_type : MovementType
  quantity : ℚ
  notes : Option String
  created_at : Nat
  responsible_user_id : Nat
  product_name : String
  product_unit : String
  responsible_name : String
deriving DecidableEq, Repr

/-- The display join of loadMovements: the nested select products(name, unit)
resolves the referenced product, and the profile lookup fills
responsible_name, defaulting to "Usuário" when no profile is found. -/
def displayRow (ps : List Product) (prs : List Profile) (m : Movement) : MovementRow :=
  let prod := ps.find? fun p => p.id == m.product_id
  let prof := prs.find? fun q => q.id == m.responsible_user_id
  { id := m.id
    product_id := m.product_id
    movement_type := m.movement_type
    quantity := m.quantity
    notes := m.notes
    created_at := m.created_at
    responsible_user_id := m.responsible_user_id
    product_name := (prod.map Product.name).getD ""
    product_unit := (prod.map Product.unit).getD ""
    responsible_name := (prof.map Profile.full_name).getD "Usuário" }

/-- loadMovements of Stock.tsx: order by created_at descending, limit 50,
then attach the joined display fields. -/
def loadMovements (ms : List Movement) (ps : List Product) (prs : List Profile) :
    List MovementRow :=
  ((ms.mergeSort movementDesc).take 50).map (displayRow ps prs)

/-! Concrete sample data, used to exercise the theorems on closed inputs. -/

/-- A sample product with balance 5 and minimum 10. -/
def exProduct : Product := ⟨1, "Martelo", none, some 4, "unidade", 5, 10, 0, 0⟩

/-- A sample database state holding one category, one product, one profile. -/
def exState : DBState :=
  ⟨[⟨4, "Ferramentas", none, 0⟩], [exProduct], [], [⟨7, "Ana", 0⟩]⟩

/-- A sample run of three requests: entry 3, exit 10, entry 2. -/
def exReqs : List (MovementRequest × Nat × Nat) :=
  [(⟨1, .entrada, 3, none, 7⟩, 100, 10),
   (⟨1, .saida, 10, none, 7⟩, 101, 11),
   (⟨1, .entrada, 2, none, 7⟩, 102, 12)]

/-- The product of exState after the three sample requests. -/
def exProductFinal : Product :=
  ⟨1, "Martelo", none, some 4, "unidade", max (5 + 3 - 10) 0 + 2, 10, 0, 12⟩

/-- The state of exState after the three sample requests. -/
def exStateFinal : DBState :=
  ⟨[⟨4, "Ferramentas", none, 0⟩], [exProductFinal],
   [⟨100, 1, .entrada, 3, 7, none, 10⟩, ⟨101, 1, .saida, 10, 7, none, 11⟩,
    ⟨102, 1, .entrada, 2, 7, none, 12⟩], [⟨7, "Ana", 0⟩]⟩

/-- A sample movement over exState's product. -/
def exMovement : Movement := ⟨100, 1, .saida, 3, 7, none, 9⟩

/-! Helper lemmas about the embedded operations. -/

/-- The trigger never changes a product's id. -/
theorem updateRow_id (m : Movement) (now : Nat) (p : Product) :
    (updateRow m now p).id = p.id := by
  unfold updateRow
  split
  · cases m.movement_type <;> rfl
  · rfl

/-- The trigger's row update, expressed through the single-balance
arithmetic applyOne. -/
theorem updateRow_eq (m : Movement) (now : Nat) (p : Product) :
    updateRow m now p =
      if p.id = m.product_id then
        { p with current_quantity := applyOne p.current_quantity m.movement_type m.quantity,
                 updated_at := now }
      else p := by
  unfold updateRow applyOne
  cases m.movement_type <;> rfl

/-- Lookup by id commutes with an id-preserving row transformation. -/
theorem find?_map_of_id (f : Product → Product) (hf : ∀ p, (f p).id = p.id) (pid : Nat)
    (ps : List Product) :
    (ps.map f).find? (fun p => p.id == pid) = (ps.find? (fun p => p.id == pid)).map f := by
  induction ps with
  | nil => rfl
  | cons a l ih =>
    by_cases h : a.id = pid
    · rw [List.map_cons, List.find?_cons_of_pos, List.find?_cons_of_pos]
      · rfl
      · simpa using h
      · simp [hf a, h]
    · rw [List.map_cons, List.find?_cons_of_neg, List.find?_cons_of_neg, ih]
      · simpa using h
      · simp [hf a, h]

/-- A successful lookup returns a row with the looked-up id. -/
theorem getProduct_id (s : DBState) (pid : Nat) (p : Product)
    (hp : getProduct s pid = some p) : p.id = pid := by
  have := List.find?_some hp
  simpa using this

/-- A successful lookup returns a member of the products table. -/
theorem getProduct_mem (s : DBState) (pid : Nat) (p : Product)
    (hp : getProduct s pid = some p) : p ∈ s.products :=
  List.mem_of_find?_eq_some hp

/-- Inversion of a successful movement creation: the request passed the
quantity check and the RLS check, and the new state is the old one with the
movement appended and the trigger applied to the products. -/
theorem createMovement_ok (caller : Nat) (req : MovementRequest) (newId now : Nat)
    (s s' : DBState) (h : createMovement caller req newId now s = .ok s') :
    0 < req.quantity ∧ req.responsible_user_id = caller ∧
    s' = { s with
      movements := s.movements ++ [mkMovement req newId now]
      products := update_product_quantity s.products (mkMovement req newId now) now } := by
  unfold createMovement at h
  split_ifs at h with h1 h2 h3
  exact ⟨not_le.mp h1, not_not.mp h2, (Except.ok.injEq .. ▸ h).symm⟩

/-- The balance arithmetic preserves non-negativity for non-negative
movement quantities. -/
theorem applyOne_nonneg (Q q : ℚ) (t : MovementType) (hQ : 0 ≤ Q) (hq : 0 ≤ q) :
    0 ≤ applyOne Q t q := by
  cases t
  · exact add_nonneg hQ hq
  · exact le_max_right _ _

/-- Looking a product up after the trigger ran: the found row is the old row,
updated when and only when it is the movement's product. -/
theorem getProduct_after_update (ps : List Product) (m : Movement) (now pid : Nat) :
    (update_product_quantity ps m now).find? (fun p => p.id == pid) =
      (ps.find? (fun p => p.id == pid)).map (fun p =>
        if p.id = m.product_id then
          { p with current_quantity := applyOne p.current_quantity m.movement_type m.quantity,
                   updated_at := now }
        else p) := by
  unfold update_product_quantity
  rw [find?_map_of_id (updateRow m now) (updateRow_id m now) pid ps]
  cases hf : ps.find? (fun p => p.id == pid) with
  | none => rfl
  | some p => simp [updateRow_eq]

/-- Claim C1: for every product and every sequence of accepted movements,
the product's current_quantity after the sequence equals the left fold of
the movements touching it, starting from its initial quantity, where an
entry of quantity q maps Q to Q + q and an exit maps Q to max (Q - q) 0;
and a non-negative initial quantity stays non-negative. -/
theorem movement_fold_invariant (caller : Nat) (reqs : List (MovementRequest × Nat × Nat))
    (s s' : DBState) (pid : Nat) (p p' : Product)
    (hrun : processAll caller reqs s = .ok s')
    (hp : getProduct s pid = some p)
    (hp' : getProduct s' pid = some p') :
    p'.current_quantity =
      ((reqs.map Prod.fst).filter (fun r => r.product_id == pid)).foldl
        (fun Q r => applyOne Q r.movement_type r.quantity) p.current_quantity
    ∧ (0 ≤ p.current_quantity → 0 ≤ p'.current_quantity) := by
  induction reqs generalizing s p with
  | nil =>
    simp only [processAll] at hrun
    obtain rfl : s = s' := Except.ok.inj hrun
    rw [hp] at hp'
    obtain rfl : p = p' := Option.some.inj hp'
    simp
  | cons hd tl ih =>
    obtain ⟨r, i, t⟩ := hd
    simp only [processAll] at hrun
    cases hc : createMovement caller r i t s with
    | error e =>
      rw [hc] at hrun
      exact absurd hrun (by simp)
    | ok s1 =>
      rw [hc] at hrun
      obtain ⟨hqpos, _, hs1⟩ := createMovement_ok caller r i t s s1 hc
      have hpid : p.id = pid := getProduct_id s pid p hp
      by_cases hmatch : r.product_id = pid
      · have hp1 : getProduct s1 pid = some
            { p with current_quantity := applyOne p.current_quantity r.movement_type r.quantity,
                     updated_at := t } := by
          rw [hs1]
          show (update_product_quantity s.products (mkMovement r i t) t).find?
              (fun q => q.id == pid) = _
          rw [getProduct_after_update,
              show s.products.find? (fun q => q.id == pid) = some p from hp]
          simp [mkMovement, hpid, hmatch]
        obtain ⟨hfold, hnn⟩ := ih s1 _ hrun hp1
        constructor
        · rw [hfold]
          simp only [List.map_cons, List.filter_cons, hmatch, beq_self_eq_true, if_true,
            List.foldl_cons]
        · intro h0
          exact hnn (applyOne_nonneg _ _ _ h0 (le_of_lt hqpos))
      · have hp1 : getProduct s1 pid = some p := by
          rw [hs1]
          show (update_product_quantity s.products (mkMovement r i t) t).find?
              (fun q => q.id == pid) = _
          rw [getProduct_after_update,
              show s.products.find? (fun q => q.id == pid) = some p from hp]
          have hne : ¬ p.id = (mkMovement r i t).product_id := by
            simp only [mkMovement, hpid]
            exact fun hh => hmatch hh.symm
          simp [hne]
        obtain ⟨hfold, hnn⟩ := ih s1 p hrun hp1
        constructor
        · rw [hfold]
          simp only [List.map_cons, List.filter_cons]
          rw [if_neg (by simpa using hmatch)]
        · exact hnn

/-- Closed check of movement_fold_invariant: starting from balance 5, the
run entry 3, exit 10, entry 2 is accepted and the final balance is the
clamped fold of the sequence. -/
theorem movement_fold_invariant_witness :
    processAll 7 exReqs exState = .ok exStateFinal ∧
    getProduct exState 1 = some exProduct ∧
    getProduct exStateFinal 1 = some exProductFinal ∧
    (exProductFinal.current_quantity =
      ((exReqs.map Prod.fst).filter (fun r => r.product_id == 1)).foldl
        (fun Q r => applyOne Q r.movement_type r.quantity) exProduct.current_quantity
    ∧ (0 ≤ exProduct.current_quantity → 0 ≤ exProductFinal.current_quantity)) :=
  ⟨rfl, rfl, rfl,
   movement_fold_invariant 7 exReqs exState exStateFinal 1 exProduct exProductFinal
     rfl rfl rfl⟩

/-- Claim C2: an exit movement whose quantity exceeds the current balance is
accepted, not rejected, and the resulting balance is exactly 0. -/
theorem exit_exceeding_balance_clamps (caller : Nat) (req : MovementRequest)
    (newId now : Nat) (s : DBState) (p : Product)
    (hp : getProduct s req.product_id = some p)
    (ht : req.movement_type = .saida)
    (hresp : req.responsible_user_id = caller)
    (h0 : 0 ≤ p.current_quantity)
    (hq : p.current_quantity < req.quantity) :
    ∃ s', createMovement caller req newId now s = .ok s' ∧
      ∃ p', getProduct s' req.product_id = some p' ∧ p'.current_quantity = 0 := by
  have hpid : p.id = req.product_id := getProduct_id s req.product_id p hp
  have hqpos : ¬ req.quantity ≤ 0 := not_le.mpr (lt_of_le_of_lt h0 hq)
  have hmem : (s.products.any fun q => q.id == req.product_id) = true :=
    List.any_eq_true.mpr ⟨p, getProduct_mem s req.product_id p hp, by simp [hpid]⟩
  have hcm : createMovement caller req newId now s = .ok { s with
      movements := s.movements ++ [mkMovement req newId now]
      products := update_product_quantity s.products (mkMovement req newId now) now } := by
    unfold createMovement
    rw [if_neg hqpos, if_neg (by simp [hresp]), if_neg (by simp [hmem])]
  refine ⟨_, hcm,
    { p with current_quantity := applyOne p.current_quantity req.movement_type req.quantity,
             updated_at := now }, ?_, ?_⟩
  · show (update_product_quantity s.products (mkMovement req newId now) now).find?
        (fun q => q.id == req.product_id) = _
    rw [getProduct_after_update,
        show s.products.find? (fun q => q.id == req.product_id) = some p from hp]
    simp [mkMovement, hpid]
  · show applyOne p.current_quantity req.movement_type req.quantity = 0
    rw [ht]
    exact max_eq_right (sub_nonpos.mpr hq.le)

/-- Closed check of exit_exceeding_balance_clamps: balance 5, exit 8 is
accepted and yields balance 0. -/
theorem exit_exceeding_balance_clamps_witness :
    getProduct exState 1 = some exProduct ∧ (0:ℚ) ≤ 5 ∧ (5:ℚ) < 8 ∧
    (∃ s', createMovement 7 ⟨1, .saida, 8, none, 7⟩ 100 9 exState = .ok s' ∧
      ∃ p', getProduct s' 1 = some p' ∧ p'.current_quantity = 0) :=
  ⟨rfl, by decide, by decide,
   exit_exceeding_balance_clamps 7 ⟨1, .saida, 8, none, 7⟩ 100 9 exState exProduct
     rfl rfl rfl (by decide) (by decide)⟩

/-- Claim C3: a movement with non-positive quantity is rejected with
InvalidArgument for either movement type; no movement row is created and no
product changes. -/
theorem nonpositive_quantity_rejected (caller : Nat) (req : MovementRequest)
    (newId now : Nat) (s : DBState) (hq : req.quantity ≤ 0) :
    createMovement caller req newId now s = .error .invalidArgument ∧
    step (.createMovementOp caller req newId now) s = s := by
  have h : createMovement caller req newId now s = .error .invalidArgument := by
    unfold createMovement
    rw [if_pos hq]
  exact ⟨h, by simp [step, h]⟩

/-- Closed check of nonpositive_quantity_rejected at quantity 0. -/
theorem nonpositive_quantity_rejected_witness :
    (0:ℚ) ≤ 0 ∧
    (createMovement 7 ⟨1, .entrada, 0, none, 7⟩ 100 9 exState = .error .invalidArgument ∧
     step (.createMovementOp 7 ⟨1, .entrada, 0, none, 7⟩ 100 9) exState = exState) :=
  ⟨by decide,
   nonpositive_quantity_rejected 7 ⟨1, .entrada, 0, none, 7⟩ 100 9 exState (by decide)⟩

/-- Claim C4: a positive-quantity movement whose responsible_user_id differs
from the caller's identity is rejected with PermissionDenied and leaves the
state unchanged, and any accepted movement has responsible_user_id equal to
the caller. -/
theorem mismatched_responsible_rejected (caller : Nat) (req : MovementRequest)
    (newId now : Nat) (s : DBState) (hq : 0 < req.quantity) :
    (req.responsible_user_id ≠ caller →
      createMovement caller req newId now s = .error .permissionDenied ∧
      step (.createMovementOp caller req newId now) s = s) ∧
    (∀ s', createMovement caller req newId now s = .ok s' →
      req.responsible_user_id = caller) := by
  constructor
  · intro hne
    have h : createMovement caller req newId now s = .error .permissionDenied := by
      unfold createMovement
      rw [if_neg (not_le.mpr hq), if_pos hne]
    exact ⟨h, by simp [step, h]⟩
  · intro s' hs'
    exact (createMovement_ok caller req newId now s s' hs').2.1

/-- Closed check of mismatched_responsible_rejected: responsible user 7 with
caller 9 is rejected with PermissionDenied. -/
theorem mismatched_responsible_rejected_witness :
    (0:ℚ) < 3 ∧ (7 ≠ 9) ∧
    (createMovement 9 ⟨1, .entrada, 3, none, 7⟩ 100 9 exState = .error .permissionDenied ∧
     step (.createMovementOp 9 ⟨1, .entrada, 3, none, 7⟩ 100 9) exState = exState) :=
  ⟨by decide, by decide,
   (mismatched_responsible_rejected 9 ⟨1, .entrada, 3, none, 7⟩ 100 9 exState
     (by decide)).1 (by decide)⟩

/-- Claim C5: the low-stock classification used by the stock-page badge, the
stock-page alert list and the dashboard count is exactly
current_quantity ≤ minimum_quantity, non-strict, computed from the product
snapshot alone. -/
theorem low_stock_classification (p : Product) (ps : List Product) :
    (isLowStock p = true ↔ p.current_quantity ≤ p.minimum_quantity) ∧
    getLowStockProducts ps = ps.filter (fun q => isLowStock q) ∧
    lowStockProducts ps = (getLowStockProducts ps).length ∧
    (p.current_quantity = p.minimum_quantity → isLowStock p = true) := by
  refine ⟨by simp [isLowStock], rfl, rfl, ?_⟩
  intro h
  simp [isLowStock, h]

/-- Closed check of low_stock_classification: a product exactly at its
minimum is classified low-stock, and the three sites agree on exState. -/
theorem low_stock_classification_witness :
    (isLowStock ⟨1, "Martelo", none, none, "unidade", 10, 10, 0, 0⟩ = true ↔
      (10:ℚ) ≤ 10) ∧
    getLowStockProducts exState.products =
      exState.products.filter (fun q => isLowStock q) ∧
    lowStockProducts exState.products = (getLowStockProducts exState.products).length ∧
    isLowStock ⟨1, "Martelo", none, none, "unidade", 10, 10, 0, 0⟩ = true :=
  ⟨(low_stock_classification ⟨1, "Martelo", none, none, "unidade", 10, 10, 0, 0⟩
      exState.products).1,
   (low_stock_classification ⟨1, "Martelo", none, none, "unidade", 10, 10, 0, 0⟩
      exState.products).2.1,
   (low_stock_classification ⟨1, "Martelo", none, none, "unidade", 10, 10, 0, 0⟩
      exState.products).2.2.1,
   (low_stock_classification ⟨1, "Martelo", none, none, "unidade", 10, 10, 0, 0⟩
      exState.products).2.2.2 rfl⟩

/-- Claim C6: the movement log is append-only: after any exposed operation,
every movement row previously present is still present unchanged, except
that deleting a product cascades to that product's movements. -/
theorem movements_append_only (o : Op) (s : DBState) (m : Movement)
    (hm : m ∈ s.movements) :
    m ∈ (step o s).movements ∨
    ∃ pid, o = .deleteProductOp pid ∧ m.product_id = pid := by
  cases o with
  | createCategoryOp n d i t => exact Or.inl (by simpa [step, createCategory] using hm)
  | updateCategoryOp c n d => exact Or.inl (by simpa [step, updateCategory] using hm)
  | deleteCategoryOp c => exact Or.inl (by simpa [step, deleteCategory] using hm)
  | createProductOp f i t => exact Or.inl (by simpa [step, createProduct] using hm)
  | updateProductOp pid f t => exact Or.inl (by simpa [step, updateProduct] using hm)
  | deleteProductOp pid =>
    by_cases h : m.product_id = pid
    · exact Or.inr ⟨pid, rfl, h⟩
    · refine Or.inl ?_
      show m ∈ s.movements.filter fun x => x.product_id != pid
      exact List.mem_filter.mpr ⟨hm, by simp [h]⟩
  | createMovementOp c r i t =>
    cases hc : createMovement c r i t s with
    | error e => exact Or.inl (by simpa [step, hc] using hm)
    | ok s1 =>
      refine Or.inl ?_
      have hs1 := (createMovement_ok c r i t s s1 hc).2.2
      simp only [step, hc]
      rw [hs1]
      exact List.mem_append_left _ hm

/-- Closed check of movements_append_only: an existing movement survives a
further movement creation. -/
theorem movements_append_only_witness :
    exMovement ∈ ({ exState with movements := [exMovement] } : DBState).movements ∧
    (exMovement ∈
      (step (.createMovementOp 7 ⟨1, .entrada, 3, none, 7⟩ 101 10)
        { exState with movements := [exMovement] }).movements ∨
     ∃ pid, (Op.createMovementOp 7 ⟨1, .entrada, 3, none, 7⟩ 101 10) =
        .deleteProductOp pid ∧ exMovement.product_id = pid) :=
  ⟨by simp,
   movements_append_only (.createMovementOp 7 ⟨1, .entrada, 3, none, 7⟩ 101 10)
     { exState with movements := [exMovement] } exMovement (by simp)⟩

/-- Claim C8: the quantity-maintenance trigger changes only the affected
product's current_quantity and updated_at; its remaining fields, and every
product with a different id, are untouched, and no row is added or removed. -/
theorem quantity_update_frame (ps : List Product) (m : Movement) (now : Nat)
    (p : Product) (hp : p ∈ ps) :
    (update_product_quantity ps m now).length = ps.length ∧
    (p.id ≠ m.product_id → p ∈ update_product_quantity ps m now) ∧
    ∃ p', p' ∈ update_product_quantity ps m now ∧
      p'.id = p.id ∧ p'.name = p.name ∧ p'.description = p.description ∧
      p'.category_id = p.category_id ∧ p'.unit = p.unit ∧
      p'.minimum_quantity = p.minimum_quantity ∧ p'.created_at = p.created_at ∧
      (p.id = m.product_id →
        p'.current_quantity = applyOne p.current_quantity m.movement_type m.quantity ∧
        p'.updated_at = now) ∧
      (p.id ≠ m.product_id → p' = p) := by
  refine ⟨by simp [update_product_quantity], ?_, ?_⟩
  · intro hne
    have heq : updateRow m now p = p := by rw [updateRow_eq, if_neg hne]
    exact List.mem_map.mpr ⟨p, hp, heq⟩
  · refine ⟨updateRow m now p, List.mem_map.mpr ⟨p, hp, rfl⟩, ?_⟩
    rw [updateRow_eq]
    by_cases h : p.id = m.product_id <;> simp [h]

/-- Closed check of quantity_update_frame on exState's product and
exMovement. -/
theorem quantity_update_frame_witness :
    exProduct ∈ exState.products ∧
    ((update_product_quantity exState.products exMovement 9).length =
        exState.products.length ∧
     (exProduct.id ≠ exMovement.product_id →
        exProduct ∈ update_product_quantity exState.products exMovement 9) ∧
     ∃ p', p' ∈ update_product_quantity exState.products exMovement 9 ∧
       p'.id = exProduct.id ∧ p'.name = exProduct.name ∧
       p'.description = exProduct.description ∧
       p'.category_id = exProduct.category_id ∧ p'.unit = exProduct.unit ∧
       p'.minimum_quantity = exProduct.minimum_quantity ∧
       p'.created_at = exProduct.created_at ∧
       (exProduct.id = exMovement.product_id →
         p'.current_quantity =
           applyOne exProduct.current_quantity exMovement.movement_type
             exMovement.quantity ∧
         p'.updated_at = 9) ∧
       (exProduct.id ≠ exMovement.product_id → p' = exProduct)) :=
  ⟨by simp [exState],
   quantity_update_frame exState.products exMovement 9 exProduct (by simp [exState])⟩

/-- The descending comparison of loadMovements is transitive. -/
theorem movementDesc_trans (a b c : Movement) (hab : movementDesc a b = true)
    (hbc : movementDesc b c = true) : movementDesc a c = true := by
  simp only [movementDesc, decide_eq_true_eq] at *
  omega

/-- The descending comparison of loadMovements is total. -/
theorem movementDesc_total (a b : Movement) :
    (movementDesc a b || movementDesc b a) = true := by
  simp only [movementDesc, Bool.or_eq_true, decide_eq_true_eq]
  omega

/-- Claim C9: listing movements returns at most the 50 most recent rows, in
descending creation order, all of them when the log holds at most 50, each
joined with the referenced product's name and unit and with the responsible
profile's full name. The returned rows display a sub-multiset shown of the
log of size min 50 (length of the log), and every movement left out is no
newer than any movement shown: the listing selects the most recent ones. -/
theorem load_movements_spec (ms : List Movement) (ps : List Product)
    (prs : List Profile) :
    (loadMovements ms ps prs).length ≤ 50 ∧
    List.Pairwise (fun a b => b.created_at ≤ a.created_at) (loadMovements ms ps prs) ∧
    (∀ r ∈ loadMovements ms ps prs, ∃ m ∈ ms, r = displayRow ps prs m) ∧
    (ms.length ≤ 50 → ∀ m ∈ ms, displayRow ps prs m ∈ loadMovements ms ps prs) ∧
    (∃ shown rest : List Movement,
      loadMovements ms ps prs = shown.map (displayRow ps prs) ∧
      shown.length = min 50 ms.length ∧
      (shown ++ rest).Perm ms ∧
      ∀ a ∈ shown, ∀ b ∈ rest, b.created_at ≤ a.created_at) ∧
    (∀ m : Movement, ∀ prod : Product,
      ps.find? (fun q => q.id == m.product_id) = some prod →
      (displayRow ps prs m).product_name = prod.name ∧
      (displayRow ps prs m).product_unit = prod.unit) ∧
    (∀ m : Movement, ∀ pr : Profile,
      prs.find? (fun q => q.id == m.responsible_user_id) = some pr →
      (displayRow ps prs m).responsible_name = pr.full_name) := by
  have hperm : (ms.mergeSort movementDesc).Perm ms := List.mergeSort_perm ms movementDesc
  have hsorted : List.Pairwise (fun a b => movementDesc a b = true)
      (ms.mergeSort movementDesc) :=
    List.sorted_mergeSort movementDesc_trans movementDesc_total ms
  refine ⟨?_, ?_, ?_, ?_, ?_, ?_, ?_⟩
  · simp only [loadMovements, List.length_map, List.length_take]
    omega
  · refine List.pairwise_map.mpr ?_
    have htake : List.Pairwise (fun a b => movementDesc a b = true)
        ((ms.mergeSort movementDesc).take 50) :=
      List.Pairwise.sublist (List.take_sublist 50 _) hsorted
    exact htake.imp fun h => by simpa [movementDesc, displayRow] using h
  · intro r hr
    simp only [loadMovements, List.mem_map] at hr
    obtain ⟨m, hmtake, rfl⟩ := hr
    exact ⟨m, hperm.mem_iff.mp (List.take_subset 50 _ hmtake), rfl⟩
  · intro hlen m hm
    have hfull : (ms.mergeSort movementDesc).take 50 = ms.mergeSort movementDesc :=
      List.take_of_length_le (by rw [hperm.length_eq]; exact hlen)
    simp only [loadMovements, hfull, List.mem_map]
    exact ⟨m, hperm.mem_iff.mpr hm, rfl⟩
  · refine ⟨(ms.mergeSort movementDesc).take 50, (ms.mergeSort movementDesc).drop 50,
      rfl, ?_, ?_, ?_⟩
    · rw [List.length_take, hperm.length_eq]
    · rw [List.take_append_drop]
      exact hperm
    · intro a ha b hb
      have hsplit : List.Pairwise (fun a b => movementDesc a b = true)
          ((ms.mergeSort movementDesc).take 50 ++ (ms.mergeSort movementDesc).drop 50) := by
        rw [List.take_append_drop]
        exact hsorted
      have := (List.pairwise_append.mp hsplit).2.2 a ha b hb
      simpa [movementDesc] using this
  · intro m prod hfind
    simp [displayRow, hfind]
  · intro m pr hfind
    simp [displayRow, hfind]

/-- Closed check of load_movements_spec on a two-movement log: the listing is
short enough, and the join fields resolve to the product's name and unit and
the profile's full name. -/
theorem load_movements_spec_witness :
    (loadMovements [exMovement] exState.products exState.profiles).length ≤ 50 ∧
    (∃ shown rest : List Movement,
      loadMovements [exMovement] exState.products exState.profiles =
        shown.map (displayRow exState.products exState.profiles) ∧
      shown.length = min 50 ([exMovement] : List Movement).length ∧
      (shown ++ rest).Perm [exMovement] ∧
      ∀ a ∈ shown, ∀ b ∈ rest, b.created_at ≤ a.created_at) ∧
    (displayRow exState.products exState.profiles exMovement).product_name = "Martelo" ∧
    (displayRow exState.products exState.profiles exMovement).product_unit = "unidade" ∧
    (displayRow exState.products exState.profiles exMovement).responsible_name = "Ana" :=
  ⟨(load_movements_spec [exMovement] exState.products exState.profiles).1,
   (load_movements_spec [exMovement] exState.products exState.profiles).2.2.2.2.1,
   ((load_movements_spec [exMovement] exState.products exState.profiles).2.2.2.2.2.1
     exMovement exProduct rfl).1,
   ((load_movements_spec [exMovement] exState.products exState.profiles).2.2.2.2.2.1
     exMovement exProduct rfl).2,
   (load_movements_spec [exMovement] exState.products exState.profiles).2.2.2.2.2.2
     exMovement ⟨7, "Ana", 0⟩ rfl⟩

/-- Claim C10: a product created through the registration operation starts
with current_quantity 0 (the insert hardcodes it), and no exposed operation
other than an entry-movement creation ever raises any product's
current_quantity above what some product with the same id already had. -/
theorem product_creation_starts_at_zero (f : ProductForm) (newId now : Nat)
    (s : DBState) (o : Op) :
    (∀ p' ∈ (createProduct f newId now s).products,
      p' ∈ s.products ∨ p'.current_quantity = 0) ∧
    (isEntryOp o = false → ∀ p' ∈ (step o s).products,
      (∃ p ∈ s.products, p.id = p'.id ∧ p'.current_quantity ≤ p.current_quantity) ∨
      p'.current_quantity = 0) := by
  constructor
  · intro p' hp'
    simp only [createProduct, List.mem_append, List.mem_singleton] at hp'
    rcases hp' with h | h
    · exact Or.inl h
    · exact Or.inr (by rw [h])
  · intro hentry p' hp'
    cases o with
    | createCategoryOp n d i t =>
      exact Or.inl ⟨p', by simpa [step, createCategory] using hp', rfl, le_refl _⟩
    | updateCategoryOp c n d =>
      exact Or.inl ⟨p', by simpa [step, updateCategory] using hp', rfl, le_refl _⟩
    | deleteCategoryOp c =>
      simp only [step, deleteCategory, List.mem_map] at hp'
      obtain ⟨p, hpmem, rfl⟩ := hp'
      refine Or.inl ⟨p, hpmem, ?_, ?_⟩ <;> by_cases h : p.category_id = some c <;> simp [h]
    | createProductOp f2 i t =>
      simp only [step, createProduct, List.mem_append, List.mem_singleton] at hp'
      rcases hp' with h | h
      · exact Or.inl ⟨p', h, rfl, le_refl _⟩
      · exact Or.inr (by rw [h])
    | updateProductOp pid f2 t =>
      simp only [step, updateProduct, List.mem_map] at hp'
      obtain ⟨p, hpmem, rfl⟩ := hp'
      refine Or.inl ⟨p, hpmem, ?_, ?_⟩ <;> by_cases h : p.id = pid <;> simp [h]
    | deleteProductOp pid =>
      simp only [step, deleteProduct, List.mem_filter] at hp'
      exact Or.inl ⟨p', hp'.1, rfl, le_refl _⟩
    | createMovementOp c r i t =>
      have hsaida : r.movement_type = .saida := by
        cases hmt : r.movement_type
        · rw [isEntryOp, hmt] at hentry
          simp at hentry
        · rfl
      cases hc : createMovement c r i t s with
      | error e =>
        refine Or.inl ⟨p', ?_, rfl, le_refl _⟩
        simpa [step, hc] using hp'
      | ok s1 =>
        have hqpos := (createMovement_ok c r i t s s1 hc).1
        have hs1 := (createMovement_ok c r i t s s1 hc).2.2
        simp only [step, hc] at hp'
        rw [hs1] at hp'
        simp only [update_product_quantity, List.mem_map] at hp'
        obtain ⟨p, hpmem, rfl⟩ := hp'
        rw [updateRow_eq]
        by_cases h : p.id = (mkMovement r i t).product_id
        · rw [if_pos h]
          simp only [mkMovement, hsaida]
          rcases le_or_lt (p.current_quantity - r.quantity) 0 with hle | hlt
          · exact Or.inr (by simpa [applyOne] using max_eq_right hle)
          · refine Or.inl ⟨p, hpmem, rfl, ?_⟩
            have : applyOne p.current_quantity MovementType.saida r.quantity =
                p.current_quantity - r.quantity := max_eq_left hlt.le
            rw [this]
            linarith
        · rw [if_neg h]
          exact Or.inl ⟨p, hpmem, rfl, le_refl _⟩

/-- Closed check of product_creation_starts_at_zero: a freshly registered
product has current_quantity 0, and an exit movement does not raise any
balance. -/
theorem product_creation_starts_at_zero_witness :
    (∀ p' ∈ (createProduct ⟨"Serra", none, none, "unidade", 2⟩ 9 3 exState).products,
      p' ∈ exState.products ∨ p'.current_quantity = 0) ∧
    (∀ p' ∈ (step (.createMovementOp 7 ⟨1, .saida, 2, none, 7⟩ 200 13) exState).products,
      (∃ p ∈ exState.products, p.id = p'.id ∧
        p'.current_quantity ≤ p.current_quantity) ∨
      p'.current_quantity = 0) :=
  ⟨(product_creation_starts_at_zero ⟨"Serra", none, none, "unidade", 2⟩ 9 3 exState
      (.createMovementOp 7 ⟨1, .saida, 2, none, 7⟩ 200 13)).1,
   (product_creation_starts_at_zero ⟨"Serra", none, none, "unidade", 2⟩ 9 3 exState
      (.createMovementOp 7 ⟨1, .saida, 2, none, 7⟩ 200 13)).2 rfl⟩

end StockLedger
